import Mathlib

/-!
Verification development for the croptop system-monitor collector.

The Go sources are embedded shallowly:
* values of type uint64 are natural numbers below 2^64; Go's wrapping
  subtraction a - b on uint64 is modelled by sub64, and wrapping sums
  take an explicit mod 2^64;
* float64/float32 arithmetic is modelled over the rationals.  Every
  property proved here (returning exactly 0, clamping into [0,100],
  equality of two calculators performing the same operations, conversion
  of exactly representable integers) is invariant under IEEE rounding on
  the values involved, because integer-to-float conversion is monotone
  and the guards compare against exactly representable bounds;
* file reads are passed in as explicit contents of type Option String
  (none models a read error), timestamps and durations as integer
  nanoseconds (Go's time.Duration unit);
* string routines from the Go standard library (strings.Fields,
  strings.TrimSpace, strings.Split, strings.SplitN, strings.HasPrefix,
  strconv.ParseUint, strconv.Atoi, strconv.ParseFloat on plain decimal
  forms) are reproduced by structural recursion on character lists.
-/

namespace Croptop

/-- Modulus of Go uint64 arithmetic, 2^64. -/
def U64MOD : Nat := 18446744073709551616

/-- Wrapping subtraction of two uint64 values (naturals below 2^64):
Go's a - b on uint64. -/
def sub64 (a b : Nat) : Nat :=
  if b ≤ a then a - b else U64MOD - (b - a)

/-- Character list of a string (Go strings are handled by rune here,
adequate for the ASCII data formats at issue). -/
def chars (s : String) : List Char := s.data

/-- Splitting on every occurrence of a separator character; yields one
piece more than the number of separators, as Go strings.Split does. -/
def splitCharAll (sep : Char) : List Char → List (List Char)
  | [] => [[]]
  | c :: cs =>
    if c = sep then [] :: splitCharAll sep cs
    else
      match splitCharAll sep cs with
      | [] => [[c]]
      | h :: t => (c :: h) :: t

/-- Model of Go strings.Split(content, newline): the list of lines. -/
def linesOf (s : String) : List String :=
  (splitCharAll (Char.ofNat 10) (chars s)).map String.mk

/-- Helper for goFields: split a character list on runs of whitespace. -/
def splitWsAux : List Char → List Char → List (List Char)
  | [], acc => if acc.isEmpty then [] else [acc.reverse]
  | c :: cs, acc =>
    if c.isWhitespace then
      if acc.isEmpty then splitWsAux cs [] else acc.reverse :: splitWsAux cs []
    else splitWsAux cs (c :: acc)

/-- Model of Go strings.Fields: the whitespace-separated fields. -/
def goFields (s : String) : List String :=
  (splitWsAux (chars s) []).map String.mk

/-- Leading and trailing whitespace removed from a character list. -/
def trimChars (l : List Char) : List Char :=
  ((l.dropWhile Char.isWhitespace).reverse.dropWhile Char.isWhitespace).reverse

/-- Model of Go strings.TrimSpace. -/
def goTrim (s : String) : String := String.mk (trimChars (chars s))

/-- Helper deciding whether the second list starts the first. -/
def startsWithL : List Char → List Char → Bool
  | _, [] => true
  | [], _ :: _ => false
  | c :: cs, p :: ps => c = p && startsWithL cs ps

/-- Model of Go strings.HasPrefix(s, pat). -/
def goStartsWith (s pat : String) : Bool := startsWithL (chars s) (chars pat)

/-- Splitting off the part before the first occurrence of a character;
none when the character does not occur. -/
def splitFirst (sep : Char) : List Char → Option (List Char × List Char)
  | [] => none
  | c :: cs =>
    if c = sep then some ([], cs)
    else (splitFirst sep cs).map (fun p => (c :: p.1, p.2))

/-- Model of Go strings.SplitN(s, sep, 2) for a one-character separator:
some (parts[0], parts[1]) exactly when the separator occurs (in Go,
len(parts) == 2). -/
def splitN2c (sep : Char) (s : String) : Option (String × String) :=
  (splitFirst sep (chars s)).map (fun p => (String.mk p.1, String.mk p.2))

/-- Model of Go strings.TrimSuffix(s, colon): one trailing colon removed. -/
def trimColonStr (s : String) : String :=
  match (chars s).reverse with
  | ':' :: rest => String.mk rest.reverse
  | _ => s

/-- Decimal value of a digit run; none if empty or containing a
non-digit (accumulator form). -/
def digitsValAux : List Char → Nat → Option Nat
  | [], acc => some acc
  | c :: cs, acc =>
    if c.isDigit then digitsValAux cs (acc * 10 + (c.toNat - 48)) else none

/-- Decimal value of a nonempty digit run, none otherwise. -/
def digitsVal (l : List Char) : Option Nat :=
  if l.isEmpty then none else digitsValAux l 0

/-- Model of Go strconv.ParseUint(s, 10, 64): an unsigned decimal numeral
below 2^64, no sign permitted. -/
def parseUint64 (s : String) : Option Nat :=
  match digitsVal (chars s) with
  | some n => if n < U64MOD then some n else none
  | none => none

/-- Model of Go strconv.Atoi: an optionally signed decimal integer (the
int64 range check is omitted; no input at issue approaches it). -/
def parseIntGo (s : String) : Option Int :=
  match chars s with
  | '-' :: rest => (digitsVal rest).map (fun n => -(n : Int))
  | '+' :: rest => (digitsVal rest).map (fun n => (n : Int))
  | l => (digitsVal l).map (fun n => (n : Int))

/-- Syntactic part of Go strconv.ParseFloat on the plain decimal forms
used by the data at issue (optional sign, digits, optional single point;
exponent and hexadecimal forms are not modelled): sign, integer part,
fraction digits value, fraction length. -/
def parseFloatSyn (l : List Char) : Option (Bool × Nat × Nat × Nat) :=
  let sb : Bool × List Char :=
    match l with
    | '-' :: rest => (true, rest)
    | '+' :: rest => (false, rest)
    | _ => (false, l)
  match splitCharAll '.' sb.2 with
  | [i] => (digitsVal i).map fun a => (sb.1, a, 0, 0)
  | [i, f] =>
    match digitsVal i, digitsVal f with
    | some a, some b => some (sb.1, a, b, f.length)
    | some a, none => if f.isEmpty then some (sb.1, a, 0, 0) else none
    | none, some b => if i.isEmpty then some (sb.1, 0, b, f.length) else none
    | none, none => none
  | _ => none

/-- Rational value denoted by a parsed decimal numeral. -/
def floatVal (t : Bool × Nat × Nat × Nat) : ℚ :=
  let m : ℚ := (t.2.1 : ℚ) + (t.2.2.1 : ℚ) / (10 : ℚ) ^ t.2.2.2
  if t.1 then -m else m

/-- Model of Go strconv.ParseFloat (decimal forms), valued in ℚ. -/
def parseFloatQ (s : String) : Option ℚ :=
  (parseFloatSyn (chars s)).map floatVal

/-! ### Association lists standing in for Go maps

A Go map m with m[k] = v assignment and m[k] lookup (zero value when
absent) is modelled as an association list with overwriting insertion,
so that the length and key set agree with the Go map's. -/

/-- Overwriting insertion, as Go's m[k] = v. -/
def mapInsert {α : Type} (m : List (String × α)) (k : String) (v : α) :
    List (String × α) :=
  if m.any (fun p => p.1 == k) then
    m.map (fun p => if p.1 == k then (k, v) else p)
  else m ++ [(k, v)]

/-- Lookup, as Go's m[k] (with the zero value supplied by callers). -/
def mapLookup {α : Type} (m : List (String × α)) (k : String) : Option α :=
  (m.find? (fun p => p.1 == k)).map Prod.snd

/-! ### CPU accounting: internal/collector/cpu.go and the collector
variant in unnamed part_000 -/

/-- CPUTimes from internal/collector: accumulated total and idle tick
counters, both uint64. -/
structure CPUTimes where
  Total : Nat
  Idle : Nat
deriving Repr, DecidableEq

/-- StatsCollector.calculateUsage from internal/collector/cpu.go
(lines 211 to 228).  totalDiff and idleDiff are uint64 subtractions and
therefore wrap when the current counter is below the previous one. -/
def calculateUsage (previous current : CPUTimes) : ℚ :=
  let totalDiff := sub64 current.Total previous.Total
  let idleDiff := sub64 current.Idle previous.Idle
  if totalDiff = 0 then 0
  else
    let usage : ℚ := 100 * (sub64 totalDiff idleDiff : ℚ) / (totalDiff : ℚ)
    let usage := if usage < 0 then 0 else usage
    if usage > 100 then 100 else usage

/-- StatsCollector.calculateUsageWithValidation from the collector
sources (unnamed part_000, lines 705 to 730): the same computation
preceded by current.Total <= previous.Total and idleDiff > totalDiff
guards, with the final switch clamp. -/
def calculateUsageWithValidation (previous current : CPUTimes) : ℚ :=
  if current.Total ≤ previous.Total then 0
  else
    let totalDiff := sub64 current.Total previous.Total
    let idleDiff := sub64 current.Idle previous.Idle
    if totalDiff = 0 ∨ idleDiff > totalDiff then 0
    else
      let usage : ℚ := 100 * (sub64 totalDiff idleDiff : ℚ) / (totalDiff : ℚ)
      if usage < 0 then 0 else if usage > 100 then 100 else usage

/-- StatsCollector.parseCPUTimes from internal/collector/cpu.go
(lines 185 to 209): up to seven fields are parsed, unparsable fields are
skipped, fewer than four parsed values yields the zero record; total is
the wrapping sum of all parsed values and idle the wrapping sum of the
parsed values at indices 3 and 4. -/
def parseCPUTimes (fields : List String) : CPUTimes :=
  let times := (fields.take 7).filterMap parseUint64
  if times.length < 4 then ⟨0, 0⟩
  else
    { Total := times.foldl (fun a t => (a + t) % U64MOD) 0,
      Idle := (times.getD 3 0 + times.getD 4 0) % U64MOD }

/-- Loop body of StatsCollector.getCurrentCPUStats from
internal/collector/cpu.go (lines 167 to 180): a line whose text starts
with cpu and has at least five fields contributes a record under its
first field, retained only when its parsed Total is positive. -/
def cpuStatLine (stats : List (String × CPUTimes)) (line : String) :
    List (String × CPUTimes) :=
  if goStartsWith line "cpu" then
    let fields := goFields line
    if fields.length < 5 then stats
    else
      let times := parseCPUTimes fields.tail
      if 0 < times.Total then mapInsert stats (fields.headD "") times
      else stats
  else stats

/-- StatsCollector.getCurrentCPUStats from internal/collector/cpu.go
(lines 158 to 183), over the contents of /proc/stat. -/
def getCurrentCPUStats (content : String) : List (String × CPUTimes) :=
  (linesOf content).foldl cpuStatLine []

/-! ### The CPU cache: internal/models/system.go (collector part) -/

/-- Cache durations from the collector sources, in nanoseconds
(24 h, 30 s, 5 s, 1 s). -/
def ModelCacheDuration : Int := 86400000000000

/-- Frequency cache TTL, 30 s in nanoseconds. -/
def FrequencyCacheDuration : Int := 30000000000

/-- Temperature cache TTL, 5 s in nanoseconds. -/
def TemperatureCacheDuration : Int := 5000000000

/-- Usage cache TTL, 1 s in nanoseconds. -/
def UsageCacheDuration : Int := 1000000000

/-- CPUCache from the collector sources: cached model, frequency,
temperature and usage values with their capture timestamps, plus the
previous raw sample used for delta computation.  The mutex is dropped:
all operations here are sequentialised. -/
structure CPUCache where
  model : String
  modelTime : Int
  frequency : ℚ
  frequencyTime : Int
  temperature : ℚ
  temperatureTime : Int
  previousStats : List (String × CPUTimes)
  previousTime : Int
  cachedUsage : ℚ
  cachedCoreUsages : List ℚ
  usageTime : Int

/-- NewCPUCache: the zero cache (empty map, zero values and times). -/
def NewCPUCache : CPUCache :=
  { model := "", modelTime := 0, frequency := 0, frequencyTime := 0,
    temperature := 0, temperatureTime := 0, previousStats := [],
    previousTime := 0, cachedUsage := 0, cachedCoreUsages := [],
    usageTime := 0 }

/-- CPUCache.IsModelCacheValid: nonempty model and age below the TTL. -/
def IsModelCacheValid (c : CPUCache) (now : Int) : Bool :=
  decide (c.model ≠ "") && decide (now - c.modelTime < ModelCacheDuration)

/-- CPUCache.IsFrequencyCacheValid: nonzero frequency and age below the
TTL. -/
def IsFrequencyCacheValid (c : CPUCache) (now : Int) : Bool :=
  decide (c.frequency ≠ 0) && decide (now - c.frequencyTime < FrequencyCacheDuration)

/-- CPUCache.IsTemperatureCacheValid: nonzero temperature and age below
the TTL. -/
def IsTemperatureCacheValid (c : CPUCache) (now : Int) : Bool :=
  decide (c.temperature ≠ 0) && decide (now - c.temperatureTime < TemperatureCacheDuration)

/-- CPUCache.IsUsageCacheValid: nonzero cached usage and age below the
TTL. -/
def IsUsageCacheValid (c : CPUCache) (now : Int) : Bool :=
  decide (c.cachedUsage ≠ 0) && decide (now - c.usageTime < UsageCacheDuration)

/-- CPUCache.GetCachedModel. -/
def GetCachedModel (c : CPUCache) : String × ℚ := (c.model, c.frequency)

/-- CPUCache.SetCachedModel at the given time. -/
def SetCachedModel (c : CPUCache) (model : String) (now : Int) : CPUCache :=
  { c with model := model, modelTime := now }

/-- CPUCache.GetCachedFrequency. -/
def GetCachedFrequency (c : CPUCache) : ℚ := c.frequency

/-- CPUCache.SetCachedFrequency at the given time. -/
def SetCachedFrequency (c : CPUCache) (frequency : ℚ) (now : Int) : CPUCache :=
  { c with frequency := frequency, frequencyTime := now }

/-- CPUCache.GetCachedTemperature. -/
def GetCachedTemperature (c : CPUCache) : ℚ := c.temperature

/-- CPUCache.SetCachedTemperature at the given time. -/
def SetCachedTemperature (c : CPUCache) (temp : ℚ) (now : Int) : CPUCache :=
  { c with temperature := temp, temperatureTime := now }

/-- CPUCache.GetCachedUsage. -/
def GetCachedUsage (c : CPUCache) : ℚ × List ℚ := (c.cachedUsage, c.cachedCoreUsages)

/-- CPUCache.SetCachedUsage at the given time. -/
def SetCachedUsage (c : CPUCache) (usage : ℚ) (coreUsages : List ℚ) (now : Int) :
    CPUCache :=
  { c with cachedUsage := usage, cachedCoreUsages := coreUsages, usageTime := now }

/-- CPUCache.SetPreviousStats at the given time (the getter returns a
defensive copy, which is the identity here). -/
def SetPreviousStats (c : CPUCache) (stats : List (String × CPUTimes)) (now : Int) :
    CPUCache :=
  { c with previousStats := stats, previousTime := now }

/-- Modelled from the spec: the collector sources call
CPUCache.HasPreviousStats (cpu.go line 118, part_000 line 598) but its
body is not among the provided sources.  Per the spec, the first read
ever is the one with no previous raw sample, so the predicate reports
whether a previous raw sample is stored. -/
def HasPreviousStats (c : CPUCache) : Bool := !c.previousStats.isEmpty

/-- StatsCollector.getCachedCPUUsage from internal/collector/cpu.go
(lines 108 to 156), with the /proc/stat contents and the current time
passed explicitly and the updated cache returned.  The per-core loop
iterates the sample in list order; Go map iteration order is
unspecified, and no property proved here depends on that branch. -/
def getCachedCPUUsage (c : CPUCache) (now : Int) (content : String) :
    (ℚ × List ℚ) × CPUCache :=
  if IsUsageCacheValid c now then (GetCachedUsage c, c)
  else
    let currentStats := getCurrentCPUStats content
    if !HasPreviousStats c then
      let coreCount : Int := max ((currentStats.length : Int) - 1) 0
      ((0, List.replicate coreCount.toNat 0), SetPreviousStats c currentStats now)
    else
      let previousStats := c.previousStats
      let timeDiff := now - c.previousTime
      if timeDiff < 100000000 then (GetCachedUsage c, c)
      else
        let overallUsage :=
          calculateUsage ((mapLookup previousStats "cpu").getD ⟨0, 0⟩)
            ((mapLookup currentStats "cpu").getD ⟨0, 0⟩)
        let coreUsages := currentStats.foldl
          (fun acc p =>
            if goStartsWith p.1 "cpu" && p.1 != "cpu" then
              match mapLookup previousStats p.1 with
              | some previous => acc ++ [calculateUsage previous p.2]
              | none => acc
            else acc)
          []
        ((overallUsage, coreUsages),
          SetCachedUsage (SetPreviousStats c currentStats now) overallUsage coreUsages now)

/-! ### CPU identity: getCPUInfo, two source variants -/

/-- Loop of StatsCollector.getCPUInfo from internal/collector/cpu.go
(lines 57 to 83): no found flags, so each matching line overwrites the
accumulated value, and scanning stops once the model differs from the
default and the frequency from zero. -/
def getCPUInfoGoAux : List String → String → ℚ → String × ℚ
  | [], modelName, freq => (modelName, freq)
  | line :: rest, modelName, freq =>
    let modelName' :=
      if goStartsWith line "model name" then
        match splitN2c ':' line with
        | some p => goTrim p.2
        | none => modelName
      else modelName
    let freq' :=
      if !goStartsWith line "model name" && goStartsWith line "cpu MHz" then
        match splitN2c ':' line with
        | some p =>
          match parseFloatQ (goTrim p.2) with
          | some f => f
          | none => freq
        | none => freq
      else freq
    if modelName' ≠ "Unknown CPU" ∧ freq' ≠ 0 then (modelName', freq')
    else getCPUInfoGoAux rest modelName' freq'

/-- StatsCollector.getCPUInfo from internal/collector/cpu.go over the
lines of /proc/cpuinfo. -/
def getCPUInfoGo (lines : List String) : String × ℚ :=
  getCPUInfoGoAux lines "Unknown CPU" 0

/-- Loop of StatsCollector.getCPUInfo from the collector sources
(unnamed part_000, lines 448 to 498): found flags fix the first
occurrence of each key and scanning stops once both are found. -/
def getCPUInfoV2Aux : List String → String → ℚ → Bool → Bool → String × ℚ
  | [], m, f, _, _ => (m, f)
  | line :: rest, m, f, fm, ff =>
    if fm && ff then (m, f)
    else
      if !fm && goStartsWith line "model name" then
        match splitN2c ':' line with
        | some p => getCPUInfoV2Aux rest (goTrim p.2) f true ff
        | none => getCPUInfoV2Aux rest m f fm ff
      else if !ff && goStartsWith line "cpu MHz" then
        match splitN2c ':' line with
        | some p =>
          match parseFloatQ (goTrim p.2) with
          | some fr => getCPUInfoV2Aux rest m fr fm true
          | none => getCPUInfoV2Aux rest m f fm ff
        | none => getCPUInfoV2Aux rest m f fm ff
      else getCPUInfoV2Aux rest m f fm ff

/-- StatsCollector.getCPUInfo from the collector sources (unnamed
part_000) over the scanned lines of /proc/cpuinfo, error-free case. -/
def getCPUInfoV2 (lines : List String) : String × ℚ :=
  getCPUInfoV2Aux lines "Unknown CPU" 0 false false

/-- Value a model-name line contributes, following the spec wording for
readCPUIdentity: the trimmed text after the colon of a line whose text
starts with the model name key. -/
def modelLineValue (line : String) : Option String :=
  if goStartsWith line "model name" then (splitN2c ':' line).map (fun p => goTrim p.2)
  else none

/-- Value a cpu MHz line contributes, following the spec wording for
readCPUIdentity: the parsed number after the colon of a line whose text
starts with the cpu MHz key. -/
def freqLineValue (line : String) : Option ℚ :=
  if goStartsWith line "cpu MHz" then
    (splitN2c ':' line).bind (fun p => parseFloatQ (goTrim p.2))
  else none

/-- First occurrence of the model name key, following the spec wording. -/
def firstModelValue (lines : List String) : Option String :=
  lines.findSome? modelLineValue

/-- First occurrence of the cpu MHz key, following the spec wording. -/
def firstFreqValue (lines : List String) : Option ℚ :=
  lines.findSome? freqLineValue

/-! ### Temperature: readTemperatureFromPath and getCPUTemperature
(unnamed part_000, lines 500 to 577) -/

/-- StatsCollector.readTemperatureFromPath from the collector sources
(unnamed part_000, lines 551 to 577): none models the error return; a
raw reading above 1000 is divided by 1000 and returned at once, and only
otherwise is the [0,150] range enforced. -/
def readTemperatureFromPath (content : Option String) : Option ℚ :=
  match content with
  | none => none
  | some c =>
    match parseFloatQ (goTrim c) with
    | none => none
    | some temp =>
      if 1000 < temp then some (temp / 1000)
      else if temp < 0 ∨ 150 < temp then none
      else some temp

/-- StatsCollector.getCPUTemperature from the collector sources (unnamed
part_000, lines 500 to 549): the ordered candidate sensor reads (the
fixed path list followed by the glob expansions) are tried in turn and
the first successful one is returned; none models the final error
return, which the caller reports as 0. -/
def getCPUTemperature (sensors : List (Option String)) : Option ℚ :=
  sensors.findSome? readTemperatureFromPath

/-! ### Memory statistics: two source variants -/

/-- MemoryStats from internal/models (float64-field variant consumed by
the collector), valued in ℚ. -/
structure MemoryStatsQ where
  Total : ℚ
  Used : ℚ
  Free : ℚ
  Available : ℚ
  UsagePercent : ℚ
  SwapTotal : ℚ
  SwapUsed : ℚ
deriving Repr, DecidableEq

/-- StatsCollector.getMemoryStats from internal/collector/stat.go
(lines 168 to 209): every parsed value is multiplied by 1024 (kB to
bytes) on insertion, missing keys read as 0. -/
def getMemoryStats_statgo (content : String) : MemoryStatsQ :=
  let memInfo : List (String × ℚ) :=
    (linesOf content).foldl
      (fun m line =>
        let fields := goFields line
        if 2 ≤ fields.length then
          match parseFloatQ (fields.getD 1 "") with
          | some value => mapInsert m (trimColonStr (fields.headD "")) (value * 1024)
          | none => m
        else m)
      []
  let total := (mapLookup memInfo "MemTotal").getD 0
  let free := (mapLookup memInfo "MemFree").getD 0
  let available := (mapLookup memInfo "MemAvailable").getD 0
  let used := total - available
  let usagePercent := if 0 < total then used / total * 100 else 0
  { Total := total, Used := used, Free := free, Available := available,
    UsagePercent := usagePercent,
    SwapTotal := (mapLookup memInfo "SwapTotal").getD 0,
    SwapUsed := (mapLookup memInfo "SwapTotal").getD 0 -
      (mapLookup memInfo "SwapFree").getD 0 }

/-- Scan state of StatsCollector.getMemoryStats from
internal/collector/memory.go: the five collected fields and the
found-fields counter. -/
structure MemScanState where
  memTotal : ℚ
  memFree : ℚ
  memAvailable : ℚ
  swapTotal : ℚ
  swapFree : ℚ
  foundFields : Nat
deriving Repr, DecidableEq

/-- Switch of internal/collector/memory.go (lines 50 to 64): the first
three keys bump the found-fields counter, the swap keys do not. -/
def memUpdate (st : MemScanState) (key : String) (value : ℚ) : MemScanState :=
  if key = "MemTotal" then { st with memTotal := value, foundFields := st.foundFields + 1 }
  else if key = "MemFree" then { st with memFree := value, foundFields := st.foundFields + 1 }
  else if key = "MemAvailable" then
    { st with memAvailable := value, foundFields := st.foundFields + 1 }
  else if key = "SwapTotal" then { st with swapTotal := value }
  else if key = "SwapFree" then { st with swapFree := value }
  else st

/-- Scanner loop of internal/collector/memory.go (lines 26 to 76),
including the early exit once three fields are found and both swap
values are positive.  Parsed values are stored raw: this variant never
multiplies by 1024. -/
def memScan : List String → MemScanState → MemScanState
  | [], st => st
  | l :: ls, st =>
    let line := goTrim l
    if line = "" then memScan ls st
    else
      let fields := goFields line
      if fields.length < 2 then memScan ls st
      else
        match parseFloatQ (fields.getD 1 "") with
        | none => memScan ls st
        | some value =>
          let st' := memUpdate st (trimColonStr (fields.headD "")) value
          if 3 ≤ st'.foundFields ∧ 0 < st'.swapTotal ∧ 0 < st'.swapFree then st'
          else memScan ls st'

/-- StatsCollector.getMemoryStats from internal/collector/memory.go
(lines 16 to 122): scanner-based variant with MemAvailable fallback to
MemFree; values are kept in the units parsed from the file. -/
def getMemoryStats_memgo (content : String) : MemoryStatsQ :=
  let st := memScan (linesOf content) ⟨0, 0, 0, 0, 0, 0⟩
  if st.memTotal = 0 then ⟨0, 0, 0, 0, 0, 0, 0⟩
  else if st.foundFields < 2 then ⟨0, 0, 0, 0, 0, 0, 0⟩
  else
    let memAvailable := if st.memAvailable = 0 then st.memFree else st.memAvailable
    let memUsed := st.memTotal - memAvailable
    let usagePercent := if 0 < st.memTotal then memUsed / st.memTotal * 100 else 0
    { Total := st.memTotal, Used := memUsed, Free := st.memFree,
      Available := memAvailable, UsagePercent := usagePercent,
      SwapTotal := st.swapTotal, SwapUsed := st.swapTotal - st.swapFree }

/-! ### Battery: getBatteryStats (unnamed part_002 and stat.go, textually
identical) -/

/-- BatteryStats from internal/models. -/
structure BatteryStats where
  Level : Int
  Status : String
  TimeLeft : String
  IsCharging : Bool
  Health : Int
deriving Repr, DecidableEq

/-- StatsCollector.readBatteryInt: parsed trimmed integer contents of a
file, 0 on read or parse error. -/
def readBatteryInt (fs : String → Option String) (path : String) : Int :=
  match fs path with
  | some content => ((parseIntGo (goTrim content)).getD 0)
  | none => 0

/-- StatsCollector.readBatteryString: trimmed contents of a file,
Unknown on read error. -/
def readBatteryString (fs : String → Option String) (path : String) : String :=
  match fs path with
  | some content => goTrim content
  | none => "Unknown"

/-- StatsCollector.getBatteryHealth: full versus design energy as a
percentage, truncated 100 cap, defaulting to 100 when either reading is
unavailable or nonpositive. -/
def getBatteryHealth (fs : String → Option String) (batteryDir : String) : Int :=
  let energyFull := readBatteryInt fs (batteryDir ++ "/energy_full")
  let energyFullDesign := readBatteryInt fs (batteryDir ++ "/energy_full_design")
  if 0 < energyFullDesign ∧ 0 < energyFull then
    let health := (energyFull * 100) / energyFullDesign
    if 100 < health then 100 else health
  else 100

/-- StatsCollector.getBatteryStats from unnamed part_002 (lines 13 to
51) and internal/collector/stat.go (lines 383 to 421): batteryDirs is
the glob result for the battery device directory (empty on a glob error
as well, which Go folds into the same branch), and fs the pseudo-file
contents. -/
def getBatteryStats (batteryDirs : List String) (fs : String → Option String) :
    BatteryStats :=
  match batteryDirs with
  | [] =>
    { Level := 100, Status := "Not Available", TimeLeft := "N/A",
      IsCharging := false, Health := 100 }
  | batteryDir :: _ =>
    let level := readBatteryInt fs (batteryDir ++ "/capacity")
    let status := readBatteryString fs (batteryDir ++ "/status")
    let isCharging := status = "Charging"
    let timeLeft :=
      if ¬isCharging ∧ 0 < level then
        toString (level / 10) ++ "h " ++ toString (level % 10 * 6) ++ "m"
      else "N/A"
    { Level := level, Status := status, TimeLeft := timeLeft,
      IsCharging := isCharging, Health := getBatteryHealth fs batteryDir }

/-! ## Helper lemmas -/

/-- Wrapping subtraction is exact subtraction when no underflow occurs. -/
theorem sub64_of_le {a b : Nat} (h : b ≤ a) : sub64 a b = a - b := if_pos h

/-- The clamped usage of cpu.go always lies in the closed interval
from 0 to 100. -/
theorem calculateUsage_range (p c : CPUTimes) :
    0 ≤ calculateUsage p c ∧ calculateUsage p c ≤ 100 := by
  simp only [calculateUsage]
  split_ifs <;> constructor <;> norm_num <;> linarith

/-- The validated usage of part_000 always lies in the closed interval
from 0 to 100. -/
theorem calculateUsageWithValidation_range (p c : CPUTimes) :
    0 ≤ calculateUsageWithValidation p c ∧ calculateUsageWithValidation p c ≤ 100 := by
  simp only [calculateUsageWithValidation]
  split_ifs with h1 h2 h3 h4 <;> constructor <;> norm_num <;> linarith

/-! ## Claim C1 -/

/-- C1, counterexample: calculateUsage (internal/collector/cpu.go) does
not return 0 for current.Total below previous.Total: the uint64
subtraction wraps, and at previous = (100, 50), current = (50, 50) the
function returns 100. -/
theorem calculateUsage_wraparound_breaks_guard :
    (⟨50, 50⟩ : CPUTimes).Total ≤ (⟨100, 50⟩ : CPUTimes).Total ∧
    calculateUsage ⟨100, 50⟩ ⟨50, 50⟩ = 100 ∧
    calculateUsage ⟨100, 50⟩ ⟨50, 50⟩ ≠ 0 := by
  refine ⟨by norm_num, ?_, ?_⟩ <;> norm_num [calculateUsage, sub64, U64MOD]

/-- C1, amended: calculateUsageWithValidation (the validated variant
named among the claim's sources) satisfies the stated contract: it
returns 0 whenever current.Total is at most previous.Total and whenever
the idle delta exceeds the total delta, otherwise it returns
100 * (totalDiff - idleDiff) / totalDiff, and its result always lies in
the interval from 0 to 100.  (calculateUsage keeps only the clamp: its
missing guard is the counterexample.) -/
theorem calculateUsageWithValidation_spec (p c : CPUTimes) :
    (c.Total ≤ p.Total → calculateUsageWithValidation p c = 0) ∧
    (p.Total < c.Total → c.Total - p.Total < sub64 c.Idle p.Idle →
      calculateUsageWithValidation p c = 0) ∧
    (p.Total < c.Total → sub64 c.Idle p.Idle ≤ c.Total - p.Total →
      calculateUsageWithValidation p c =
        100 * (((c.Total : ℚ) - p.Total) - (sub64 c.Idle p.Idle : ℚ)) /
          ((c.Total : ℚ) - p.Total)) ∧
    (0 ≤ calculateUsageWithValidation p c ∧ calculateUsageWithValidation p c ≤ 100) := by
  refine ⟨?_, ?_, ?_, calculateUsageWithValidation_range p c⟩
  · intro h
    simp [calculateUsageWithValidation, h]
  · intro h hidle
    rw [calculateUsageWithValidation, if_neg (by omega)]
    simp only [sub64_of_le h.le]
    rw [if_pos (Or.inr hidle)]
  · intro h hidle
    rw [calculateUsageWithValidation, if_neg (by omega)]
    simp only [sub64_of_le h.le]
    rw [if_neg (by push_neg; exact ⟨by omega, hidle⟩)]
    have htd : (0 : ℚ) < ((c.Total - p.Total : ℕ) : ℚ) := by
      exact_mod_cast Nat.sub_pos_of_lt h
    have hid : ((sub64 c.Idle p.Idle : ℕ) : ℚ) ≤ ((c.Total - p.Total : ℕ) : ℚ) := by
      exact_mod_cast hidle
    have husage :
        (0 : ℚ) ≤ 100 * ((c.Total - p.Total - sub64 c.Idle p.Idle : ℕ) : ℚ) /
          ((c.Total - p.Total : ℕ) : ℚ) := by
      positivity
    have hle :
        100 * ((c.Total - p.Total - sub64 c.Idle p.Idle : ℕ) : ℚ) /
          ((c.Total - p.Total : ℕ) : ℚ) ≤ 100 := by
      rw [mul_div_assoc, mul_le_iff_le_one_right (by norm_num), div_le_one htd]
      exact_mod_cast Nat.sub_le _ _
    rw [sub64_of_le hidle, if_neg (by linarith), if_neg (by linarith)]
    rw [Nat.cast_sub hidle, Nat.cast_sub h.le]

/-- C1, witness for the amended theorem at previous = (0, 0),
current = (1000, 300). -/
theorem calculateUsageWithValidation_spec_witness :
    calculateUsageWithValidation ⟨0, 0⟩ ⟨1000, 300⟩ = 70 := by
  have h := (calculateUsageWithValidation_spec ⟨0, 0⟩ ⟨1000, 300⟩).2.2.1
    (by norm_num) (by norm_num [sub64])
  rw [h]
  norm_num [sub64]

/-! ## Claim C7 -/

/-- C7: for all previous and current samples with current.Total above
previous.Total, both usage calculators return a value in the closed
interval from 0 to 100. -/
theorem usage_calculation_in_range (p c : CPUTimes) (h : p.Total < c.Total) :
    (0 ≤ calculateUsage p c ∧ calculateUsage p c ≤ 100) ∧
    (0 ≤ calculateUsageWithValidation p c ∧ calculateUsageWithValidation p c ≤ 100) :=
  ⟨calculateUsage_range p c, calculateUsageWithValidation_range p c⟩

/-- C7, witness at previous = (0, 0), current = (1000, 300). -/
theorem usage_calculation_in_range_witness :
    (0 ≤ calculateUsage ⟨0, 0⟩ ⟨1000, 300⟩ ∧ calculateUsage ⟨0, 0⟩ ⟨1000, 300⟩ ≤ 100) ∧
    (0 ≤ calculateUsageWithValidation ⟨0, 0⟩ ⟨1000, 300⟩ ∧
      calculateUsageWithValidation ⟨0, 0⟩ ⟨1000, 300⟩ ≤ 100) :=
  usage_calculation_in_range ⟨0, 0⟩ ⟨1000, 300⟩ (by norm_num)

/-! ## Claim C10 -/

/-- C10: on the monotone, consistent domain (totals and idles both
nondecreasing, idle delta at most total delta) the two usage calculators
agree. -/
theorem calculateUsage_agrees_withValidation_on_monotone (p c : CPUTimes)
    (h1 : p.Total ≤ c.Total) (h2 : p.Idle ≤ c.Idle)
    (h3 : c.Idle - p.Idle ≤ c.Total - p.Total) :
    calculateUsage p c = calculateUsageWithValidation p c := by
  rcases eq_or_lt_of_le h1 with heq | hlt
  · have e0 : sub64 c.Total p.Total = 0 := by rw [sub64_of_le h1]; omega
    simp only [calculateUsage, calculateUsageWithValidation]
    rw [if_pos e0, if_pos heq.ge]
  · have hn : ¬ c.Total ≤ p.Total := not_le.mpr hlt
    have hg : ¬ (c.Total - p.Total = 0 ∨ c.Idle - p.Idle > c.Total - p.Total) := by
      push_neg
      exact ⟨by omega, h3⟩
    simp only [calculateUsage, calculateUsageWithValidation, sub64_of_le h1,
      sub64_of_le h2]
    rw [if_neg hn, if_neg (show ¬ c.Total - p.Total = 0 by omega), if_neg hg]
    split_ifs <;> first | rfl | linarith

/-- C10, witness at previous = (10, 5), current = (1010, 305). -/
theorem calculateUsage_agrees_withValidation_on_monotone_witness :
    calculateUsage ⟨10, 5⟩ ⟨1010, 305⟩ = calculateUsageWithValidation ⟨10, 5⟩ ⟨1010, 305⟩ :=
  calculateUsage_agrees_withValidation_on_monotone ⟨10, 5⟩ ⟨1010, 305⟩
    (by norm_num) (by norm_num) (by norm_num)

/-! ## Claim C8 -/

/-- C8: with no battery device directory present, getBatteryStats
returns exactly level 100, status Not Available, time left N/A, not
charging, health 100, for every state of the pseudo-files; the function
is total, so it never fails. -/
theorem getBatteryStats_no_battery_default (fs : String → Option String) :
    getBatteryStats [] fs =
      { Level := 100, Status := "Not Available", TimeLeft := "N/A",
        IsCharging := false, Health := 100 } := rfl

/-! ## Claim C9 -/

/-- C9: a cached zero value (empty model, zero frequency, zero
temperature, zero overall usage) makes the corresponding validity check
false at every time, however recently the value was stored, so a zero
reading is always recomputed. -/
theorem zero_cached_value_never_valid (c : CPUCache) (now : Int) :
    (c.model = "" → IsModelCacheValid c now = false) ∧
    (c.frequency = 0 → IsFrequencyCacheValid c now = false) ∧
    (c.temperature = 0 → IsTemperatureCacheValid c now = false) ∧
    (c.cachedUsage = 0 → IsUsageCacheValid c now = false) := by
  refine ⟨fun h => ?_, fun h => ?_, fun h => ?_, fun h => ?_⟩ <;>
    simp [IsModelCacheValid, IsFrequencyCacheValid, IsTemperatureCacheValid,
      IsUsageCacheValid, h]

/-- C9, witness on the fresh cache at time 0. -/
theorem zero_cached_value_never_valid_witness :
    IsModelCacheValid NewCPUCache 0 = false ∧
    IsFrequencyCacheValid NewCPUCache 0 = false ∧
    IsTemperatureCacheValid NewCPUCache 0 = false ∧
    IsUsageCacheValid NewCPUCache 0 = false :=
  ⟨(zero_cached_value_never_valid NewCPUCache 0).1 rfl,
   (zero_cached_value_never_valid NewCPUCache 0).2.1 rfl,
   (zero_cached_value_never_valid NewCPUCache 0).2.2.1 rfl,
   (zero_cached_value_never_valid NewCPUCache 0).2.2.2 rfl⟩

/-! ## Claim C3 -/

/-- C3, counterexample: a temperature of 0 stored at time 0 is not
served at time 0, although the elapsed time is below the TTL, so cache
validity is not exactly the condition now - capturedAt below ttl: the
checks also require a nonzero stored value. -/
theorem zero_temperature_not_served_when_fresh :
    IsTemperatureCacheValid (SetCachedTemperature NewCPUCache 0 0) 0 = false ∧
    (0 : Int) - 0 < TemperatureCacheDuration := by
  constructor
  · simp [IsTemperatureCacheValid, SetCachedTemperature, NewCPUCache]
  · norm_num [TemperatureCacheDuration]

/-- C3, amended: for a nonzero stored value (nonempty model, nonzero
frequency, temperature, usage), each family's validity check holds
exactly when now - capturedAt is below the family TTL (24 h, 30 s, 5 s,
1 s), and the getter returns the stored value. -/
theorem cache_validity_ttl_boundary (c : CPUCache) (now T : Int) (m : String)
    (f temp u : ℚ) (cores : List ℚ) (hm : m ≠ "") (hf : f ≠ 0) (ht : temp ≠ 0)
    (hu : u ≠ 0) :
    (IsModelCacheValid (SetCachedModel c m T) now = true ↔ now - T < ModelCacheDuration) ∧
    (GetCachedModel (SetCachedModel c m T)).1 = m ∧
    (IsFrequencyCacheValid (SetCachedFrequency c f T) now = true ↔
      now - T < FrequencyCacheDuration) ∧
    GetCachedFrequency (SetCachedFrequency c f T) = f ∧
    (IsTemperatureCacheValid (SetCachedTemperature c temp T) now = true ↔
      now - T < TemperatureCacheDuration) ∧
    GetCachedTemperature (SetCachedTemperature c temp T) = temp ∧
    (IsUsageCacheValid (SetCachedUsage c u cores T) now = true ↔
      now - T < UsageCacheDuration) ∧
    GetCachedUsage (SetCachedUsage c u cores T) = (u, cores) := by
  refine ⟨?_, rfl, ?_, rfl, ?_, rfl, ?_, rfl⟩ <;>
    simp [IsModelCacheValid, IsFrequencyCacheValid, IsTemperatureCacheValid,
      IsUsageCacheValid, SetCachedModel, SetCachedFrequency, SetCachedTemperature,
      SetCachedUsage, hm, hf, ht, hu]

/-- C3, witness: a model stored at time 0 is valid at one nanosecond and
a usage value stored at time 0 is valid at one nanosecond. -/
theorem cache_validity_ttl_boundary_witness :
    IsModelCacheValid (SetCachedModel NewCPUCache "X" 0) 1 = true ∧
    IsUsageCacheValid (SetCachedUsage NewCPUCache 1 [] 0) 1 = true := by
  have h := cache_validity_ttl_boundary NewCPUCache 1 0 "X" 1 1 1 []
    (by simp) (by norm_num) (by norm_num) (by norm_num)
  exact ⟨h.1.mpr (by norm_num [ModelCacheDuration]),
    h.2.2.2.2.2.2.1.mpr (by norm_num [UsageCacheDuration])⟩

/-! ## Claim C4 -/

/-- C4, counterexample: a sensor file containing 200000 parses to a raw
reading above 1000, is divided by 1000 and returned as 200, which lies
outside the range from 0 to 150 — the range check never applies to
millidegree-scaled readings. -/
theorem readTemperature_millidegree_unchecked :
    readTemperatureFromPath (some "200000") = some 200 ∧
    getCPUTemperature [some "200000"] = some 200 ∧
    ¬ ((200 : ℚ) ≤ 150) := by
  have hs : parseFloatSyn (chars (goTrim "200000")) = some (false, 200000, 0, 0) := by
    decide
  have hx : parseFloatQ (goTrim "200000") = some 200000 := by
    simp [parseFloatQ, hs, floatVal]
  have h1 : readTemperatureFromPath (some "200000") = some 200 := by
    simp only [readTemperatureFromPath, hx]
    norm_num
  refine ⟨h1, ?_, by norm_num⟩
  rw [getCPUTemperature, List.findSome?_cons_of_isSome _ (by rw [h1]; rfl), h1]

/-- C4, amended: the temperature reader returns the reading of the first
sensor that parses and passes its checks; a raw reading above 1000 is
divided by 1000 and returned with no further range check (so 45500
yields 45.5), while a raw reading at most 1000 is rejected exactly when
it lies outside the range from 0 to 150. -/
theorem readTemperature_normalization_spec (bad : List (Option String))
    (c : String) (x : ℚ)
    (hbad : ∀ o ∈ bad, readTemperatureFromPath o = none)
    (hx : parseFloatQ (goTrim c) = some x) :
    (1000 < x → getCPUTemperature (bad ++ [some c]) = some (x / 1000)) ∧
    (x ≤ 1000 → (x < 0 ∨ 150 < x) →
      readTemperatureFromPath (some c) = none ∧
      getCPUTemperature (bad ++ [some c]) = none) ∧
    (0 ≤ x → x ≤ 150 → getCPUTemperature (bad ++ [some c]) = some x) := by
  have hbad' : bad.findSome? readTemperatureFromPath = none :=
    List.findSome?_eq_none_iff.mpr hbad
  have happ : getCPUTemperature (bad ++ [some c]) = readTemperatureFromPath (some c) := by
    rw [getCPUTemperature, List.findSome?_append, hbad', Option.none_or]
    rw [List.findSome?_cons]
    cases h : readTemperatureFromPath (some c) <;> simp
  refine ⟨fun hgt => ?_, fun hle hout => ?_, fun h0 h150 => ?_⟩
  · rw [happ]
    simp only [readTemperatureFromPath, hx]
    rw [if_pos hgt]
  · have hrej : readTemperatureFromPath (some c) = none := by
      simp only [readTemperatureFromPath, hx]
      rw [if_neg (by linarith), if_pos hout]
    exact ⟨hrej, by rw [happ, hrej]⟩
  · rw [happ]
    simp only [readTemperatureFromPath, hx]
    rw [if_neg (by linarith), if_neg (by push_neg; exact ⟨h0, h150⟩)]

/-- C4, witness: with an unreadable first sensor and a second sensor
containing 45500, the reader returns 45.5. -/
theorem readTemperature_normalization_spec_witness :
    getCPUTemperature [none, some "45500"] = some (91 / 2) := by
  have hs : parseFloatSyn (chars (goTrim "45500")) = some (false, 45500, 0, 0) := by
    decide
  have hx : parseFloatQ (goTrim "45500") = some 45500 := by
    simp [parseFloatQ, hs, floatVal]
  have h := (readTemperature_normalization_spec [none] "45500" 45500
    (fun o ho => by rw [List.mem_singleton.mp ho]; rfl) hx).1 (by norm_num)
  rw [show ([none, some "45500"] : List (Option String)) =
    [none] ++ [some "45500"] from rfl, h]
  norm_num

/-! ## Claim C6 -/

/-- A line that starts with the model name key cannot start with the
cpu MHz key. -/
theorem model_line_not_freq (line : String)
    (h : goStartsWith line "model name" = true) :
    goStartsWith line "cpu MHz" = false := by
  rw [goStartsWith] at h ⊢
  rcases hl : chars line with _ | ⟨c, cs⟩
  · rw [hl] at h
    exact absurd h (by decide)
  · rw [hl] at h
    have h' : (decide (c = 'm') && startsWithL cs (chars "odel name")) = true := h
    have hc : c = 'm' := of_decide_eq_true ((Bool.and_eq_true _ _).mp h').1
    subst hc
    rfl

/-- The flagged scanner of part_000 computes, for any starting state,
the first-occurrence values (or keeps the accumulated ones once the
flags are set). -/
theorem getCPUInfoV2Aux_spec (lines : List String) :
    ∀ (m : String) (f : ℚ) (fm ff : Bool),
    getCPUInfoV2Aux lines m f fm ff =
      (if fm then m else (firstModelValue lines).getD m,
       if ff then f else (firstFreqValue lines).getD f) := by
  induction lines with
  | nil =>
    intro m f fm ff
    simp [getCPUInfoV2Aux, firstModelValue, firstFreqValue]
  | cons line rest ih =>
    intro m f fm ff
    rw [getCPUInfoV2Aux]
    cases hm : goStartsWith line "model name"
    case false =>
      cases hf : goStartsWith line "cpu MHz"
      case false =>
        cases fm <;> cases ff <;>
          simp [hm, hf, ih, firstModelValue, firstFreqValue, modelLineValue,
            freqLineValue, List.findSome?_cons]
      case true =>
        rcases hsp : splitN2c ':' line with _ | p
        · cases fm <;> cases ff <;>
            simp [hm, hf, hsp, ih, firstModelValue, firstFreqValue, modelLineValue,
              freqLineValue, List.findSome?_cons]
        · rcases hpf : parseFloatQ (goTrim p.2) with _ | fr
          · cases fm <;> cases ff <;>
              simp [hm, hf, hsp, hpf, ih, firstModelValue, firstFreqValue,
                modelLineValue, freqLineValue, List.findSome?_cons]
          · cases fm <;> cases ff <;>
              simp [hm, hf, hsp, hpf, ih, firstModelValue, firstFreqValue,
                modelLineValue, freqLineValue, List.findSome?_cons]
    case true =>
      have hf : goStartsWith line "cpu MHz" = false := model_line_not_freq line hm
      rcases hsp : splitN2c ':' line with _ | p
      · cases fm <;> cases ff <;>
          simp [hm, hf, hsp, ih, firstModelValue, firstFreqValue, modelLineValue,
            freqLineValue, List.findSome?_cons]
      · cases fm <;> cases ff <;>
          simp [hm, hf, hsp, ih, firstModelValue, firstFreqValue, modelLineValue,
            freqLineValue, List.findSome?_cons]

/-- C6, counterexample: before the cpu MHz key has been parsed, the
cpu.go variant of getCPUInfo keeps overwriting the model value, so it
returns the value of the second model name occurrence rather than the
first. -/
theorem getCPUInfoGo_not_first_occurrence :
    getCPUInfoGo ["model name : A", "model name : B", "cpu MHz : 1200"] = ("B", 1200) ∧
    firstModelValue ["model name : A", "model name : B", "cpu MHz : 1200"] = some "A" := by
  constructor
  · have hsA : splitN2c ':' "model name : A" = some ("model name ", " A") := by decide
    have hsB : splitN2c ':' "model name : B" = some ("model name ", " B") := by decide
    have hsF : splitN2c ':' "cpu MHz : 1200" = some ("cpu MHz ", " 1200") := by decide
    have htA : goTrim " A" = "A" := by decide
    have htB : goTrim " B" = "B" := by decide
    have hmA : goStartsWith "model name : A" "model name" = true := by decide
    have hmB : goStartsWith "model name : B" "model name" = true := by decide
    have hmF : goStartsWith "cpu MHz : 1200" "model name" = false := by decide
    have hfF : goStartsWith "cpu MHz : 1200" "cpu MHz" = true := by decide
    have hpf : parseFloatQ (goTrim " 1200") = some 1200 := by
      have hsyn : parseFloatSyn (chars (goTrim " 1200")) = some (false, 1200, 0, 0) := by
        decide
      simp [parseFloatQ, hsyn, floatVal]
    rw [getCPUInfoGo]
    simp +decide [getCPUInfoGoAux, hmA, hmB, hmF, hfF, hsA, hsB, hsF, htA, htB, hpf]
  · decide

/-- C6, amended: the part_000 variant of getCPUInfo (with found flags)
returns the value of the first occurrence of the model name key and of
the first occurrence of the cpu MHz key, with defaults Unknown CPU and
0 when a key never occurs or never parses, and once both keys have been
found the remaining input is ignored (early stop); the cpu.go variant
only guarantees this after both keys have been seen, since it keeps
overwriting earlier occurrences until then (the counterexample). -/
theorem getCPUInfoV2_first_occurrence (lines extra : List String) :
    getCPUInfoV2 lines =
      ((firstModelValue lines).getD "Unknown CPU", (firstFreqValue lines).getD 0) ∧
    ((firstModelValue lines).isSome → (firstFreqValue lines).isSome →
      getCPUInfoV2 (lines ++ extra) = getCPUInfoV2 lines) := by
  constructor
  · rw [getCPUInfoV2, getCPUInfoV2Aux_spec]
    simp
  · intro h1 h2
    rcases Option.isSome_iff_exists.mp h1 with ⟨v, hv⟩
    rcases Option.isSome_iff_exists.mp h2 with ⟨w, hw⟩
    have hva : firstModelValue (lines ++ extra) = some v := by
      rw [firstModelValue, List.findSome?_append, ← firstModelValue, hv]
      rfl
    have hwa : firstFreqValue (lines ++ extra) = some w := by
      rw [firstFreqValue, List.findSome?_append, ← firstFreqValue, hw]
      rfl
    rw [getCPUInfoV2, getCPUInfoV2Aux_spec, getCPUInfoV2, getCPUInfoV2Aux_spec,
      hva, hwa, hv, hw]

/-- C6, witness: a first model occurrence and a first frequency
occurrence are returned, and a further cpu MHz line after both were
found does not change the result. -/
theorem getCPUInfoV2_first_occurrence_witness :
    getCPUInfoV2 ["model name : A", "cpu MHz : 1200"] = ("A", 1200) ∧
    getCPUInfoV2 (["model name : A", "cpu MHz : 1200"] ++ ["cpu MHz : 9"]) =
      getCPUInfoV2 ["model name : A", "cpu MHz : 1200"] := by
  have hm : firstModelValue ["model name : A", "cpu MHz : 1200"] = some "A" := by decide
  have hst : goStartsWith "cpu MHz : 1200" "cpu MHz" = true := by decide
  have hn1 : freqLineValue "model name : A" = none := by decide
  have hsp : splitN2c ':' "cpu MHz : 1200" = some ("cpu MHz ", " 1200") := by decide
  have hpf : parseFloatQ (goTrim " 1200") = some 1200 := by
    have hsyn : parseFloatSyn (chars (goTrim " 1200")) = some (false, 1200, 0, 0) := by
      decide
    simp [parseFloatQ, hsyn, floatVal]
  have hf : firstFreqValue ["model name : A", "cpu MHz : 1200"] = some 1200 := by
    rw [firstFreqValue, List.findSome?_cons, hn1]
    rw [List.findSome?_cons]
    have h2 : freqLineValue "cpu MHz : 1200" = some 1200 := by
      simp [freqLineValue, hst, hsp, hpf]
    rw [h2]
  have h := getCPUInfoV2_first_occurrence ["model name : A", "cpu MHz : 1200"]
    ["cpu MHz : 9"]
  refine ⟨?_, h.2 (by rw [hm]; rfl) (by rw [hf]; rfl)⟩
  rw [h.1, hm, hf]
  rfl

/-! ## Claim C2 -/

/-- C2, evaluation at the fixture MemTotal: 16000000 kB,
MemAvailable: 8000000 kB: the stat.go variant of getMemoryStats
multiplies every parsed value by 1024 and returns Total 16384000000 with
UsagePercent 50, as the claim states; the memory.go variant stores the
parsed values raw — its own comment notwithstanding — and returns
Total 16000000, contradicting the claimed conversion. -/
theorem getMemoryStats_fixture_eval :
    (getMemoryStats_statgo "MemTotal: 16000000 kB\nMemAvailable: 8000000 kB\n").Total =
      16384000000 ∧
    (getMemoryStats_statgo "MemTotal: 16000000 kB\nMemAvailable: 8000000 kB\n").UsagePercent =
      50 ∧
    (getMemoryStats_memgo "MemTotal: 16000000 kB\nMemAvailable: 8000000 kB\n").Total =
      16000000 ∧
    (getMemoryStats_memgo "MemTotal: 16000000 kB\nMemAvailable: 8000000 kB\n").UsagePercent =
      50 := by
  have hlines : linesOf "MemTotal: 16000000 kB\nMemAvailable: 8000000 kB\n" =
      ["MemTotal: 16000000 kB", "MemAvailable: 8000000 kB", ""] := by decide
  have hf1 : goFields "MemTotal: 16000000 kB" = ["MemTotal:", "16000000", "kB"] := by
    decide
  have hf2 : goFields "MemAvailable: 8000000 kB" = ["MemAvailable:", "8000000", "kB"] := by
    decide
  have hf3 : goFields "" = [] := by decide
  have hk1 : trimColonStr "MemTotal:" = "MemTotal" := by decide
  have hk2 : trimColonStr "MemAvailable:" = "MemAvailable" := by decide
  have hp1 : parseFloatQ "16000000" = some 16000000 := by
    have h : parseFloatSyn (chars "16000000") = some (false, 16000000, 0, 0) := by decide
    simp [parseFloatQ, h, floatVal]
  have hp2 : parseFloatQ "8000000" = some 8000000 := by
    have h : parseFloatSyn (chars "8000000") = some (false, 8000000, 0, 0) := by decide
    simp [parseFloatQ, h, floatVal]
  have ht1 : goTrim "MemTotal: 16000000 kB" = "MemTotal: 16000000 kB" := by decide
  have ht2 : goTrim "MemAvailable: 8000000 kB" = "MemAvailable: 8000000 kB" := by decide
  have ht3 : goTrim "" = "" := by decide
  refine ⟨?_, ?_, ?_, ?_⟩ <;>
    simp +decide [getMemoryStats_statgo, getMemoryStats_memgo, hlines, hf1, hf2, hf3,
      hk1, hk2, hp1, hp2, ht1, ht2, ht3, memScan, memUpdate, mapInsert, mapLookup,
      List.getD, List.headD] <;>
    norm_num

/-! ## Claim C5 -/

/-- Overwriting insertion keeps the keys of the association list
pairwise distinct. -/
theorem mapInsert_pairwise {α : Type} (m : List (String × α)) (k : String) (v : α)
    (h : m.Pairwise (fun a b => a.1 ≠ b.1)) :
    (mapInsert m k v).Pairwise (fun a b => a.1 ≠ b.1) := by
  rw [mapInsert]
  split_ifs with hany
  · rw [List.pairwise_map]
    refine h.imp fun {a b} hab => ?_
    have ka : ((if a.1 == k then (k, v) else a) : String × α).1 = a.1 := by
      split_ifs with hb
      · exact (eq_of_beq hb).symm
      · rfl
    have kb : ((if b.1 == k then (k, v) else b) : String × α).1 = b.1 := by
      split_ifs with hb
      · exact (eq_of_beq hb).symm
      · rfl
    rw [ka, kb]
    exact hab
  · rw [List.pairwise_append]
    refine ⟨h, by simp, ?_⟩
    intro a ha b hb
    rw [List.mem_singleton] at hb
    subst hb
    intro hak
    apply hany
    rw [List.any_eq_true]
    exact ⟨a, ha, beq_iff_eq.mpr hak⟩

/-- One parsing step keeps the keys pairwise distinct. -/
theorem cpuStatLine_pairwise (stats : List (String × CPUTimes)) (line : String)
    (h : stats.Pairwise (fun a b => a.1 ≠ b.1)) :
    (cpuStatLine stats line).Pairwise (fun a b => a.1 ≠ b.1) := by
  simp only [cpuStatLine]
  split_ifs <;> first | exact h | exact mapInsert_pairwise _ _ _ h

/-- The parsed /proc/stat sample has pairwise distinct keys, exactly as
the Go map does. -/
theorem getCurrentCPUStats_pairwise (content : String) :
    (getCurrentCPUStats content).Pairwise (fun a b => a.1 ≠ b.1) := by
  rw [getCurrentCPUStats]
  have h : ∀ (lines : List String) (m : List (String × CPUTimes)),
      m.Pairwise (fun a b => a.1 ≠ b.1) →
      (lines.foldl cpuStatLine m).Pairwise (fun a b => a.1 ≠ b.1) := by
    intro lines
    induction lines with
    | nil => intro m hm; simpa using hm
    | cons line rest ih =>
      intro m hm
      rw [List.foldl_cons]
      exact ih _ (cpuStatLine_pairwise m line hm)
  exact h _ [] List.Pairwise.nil

/-- In a list with pairwise distinct keys, a present key accounts for
exactly one entry. -/
theorem length_of_key_mem {α : Type} (m : List (String × α)) (k : String)
    (hnd : m.Pairwise (fun a b => a.1 ≠ b.1)) (hk : k ∈ m.map Prod.fst) :
    m.length = (m.filter (fun p => p.1 != k)).length + 1 := by
  induction m with
  | nil => simp at hk
  | cons a rest ih =>
    rw [List.pairwise_cons] at hnd
    obtain ⟨ha, hrest⟩ := hnd
    rw [List.map_cons, List.mem_cons] at hk
    rw [List.filter_cons]
    by_cases hake : a.1 = k
    · have hf : rest.filter (fun p => p.1 != k) = rest := by
        rw [List.filter_eq_self]
        intro b hb
        rw [bne_iff_ne]
        exact fun hbk => (ha b hb) (hake.trans hbk.symm)
      have hcond : (a.1 != k) = false := by simp [hake]
      rw [hcond]
      simp [hf]
    · have hk' : k ∈ rest.map Prod.fst := by
        rcases hk with h1 | h2
        · exact absurd h1.symm hake
        · exact h2
      have hcond : (a.1 != k) = true := bne_iff_ne.mpr hake
      rw [hcond]
      have hlen := ih hrest hk'
      simp [List.length_cons, hlen]

/-- C5: on the first read (usage cache invalid, no previous raw
sample), getCachedCPUUsage stores the freshly parsed sample as the
previous sample and returns overall usage 0 together with a slice of
zeros holding one entry per parsed core (every parsed entry except the
overall cpu aggregate, which the sample contains). -/
theorem getCachedCPUUsage_first_read (c : CPUCache) (now : Int) (content : String)
    (hvalid : IsUsageCacheValid c now = false)
    (hprev : c.previousStats = [])
    (hcpu : "cpu" ∈ (getCurrentCPUStats content).map Prod.fst) :
    getCachedCPUUsage c now content =
      ((0, List.replicate
          ((getCurrentCPUStats content).filter (fun p => p.1 != "cpu")).length 0),
        SetPreviousStats c (getCurrentCPUStats content) now) := by
  have hlen : (getCurrentCPUStats content).length =
      ((getCurrentCPUStats content).filter (fun p => p.1 != "cpu")).length + 1 :=
    length_of_key_mem _ _ (getCurrentCPUStats_pairwise content) hcpu
  have hhas : HasPreviousStats c = false := by
    rw [HasPreviousStats, hprev]
    rfl
  have harith : (max (((getCurrentCPUStats content).length : Int) - 1) 0).toNat =
      ((getCurrentCPUStats content).filter (fun p => p.1 != "cpu")).length := by
    omega
  rw [getCachedCPUUsage, hvalid, hhas]
  simp only [Bool.false_eq_true, if_false, Bool.not_false, if_true, harith]

/-- C5, witness: a fresh cache reading a two-line /proc/stat snapshot
(the aggregate line and one core line) yields usage 0 with one zero
core entry and stores the parsed sample. -/
theorem getCachedCPUUsage_first_read_witness :
    getCachedCPUUsage NewCPUCache 0 "cpu  10 20 30 40\ncpu0 10 20 30 40" =
      ((0, [0]), SetPreviousStats NewCPUCache
        [("cpu", ⟨100, 40⟩), ("cpu0", ⟨100, 40⟩)] 0) := by
  have hstats : getCurrentCPUStats "cpu  10 20 30 40\ncpu0 10 20 30 40" =
      [("cpu", ⟨100, 40⟩), ("cpu0", ⟨100, 40⟩)] := by decide
  have h := getCachedCPUUsage_first_read NewCPUCache 0 "cpu  10 20 30 40\ncpu0 10 20 30 40"
    (by simp [IsUsageCacheValid, NewCPUCache]) rfl (by rw [hstats]; decide)
  rw [h, hstats]
  have hflen : (([("cpu", (⟨100, 40⟩ : CPUTimes)), ("cpu0", ⟨100, 40⟩)]).filter
      (fun p => p.1 != "cpu")).length = 1 := by decide
  rw [hflen]
  rfl

end Croptop
